import Mathlib

/-!
Verification development for the memfs-backed file-system adapter of
wasi-fs-access (`src/memfs-adapter.ts`).

The adapter classes `MemfsFileHandle`, `MemfsDirectoryHandle` and
`MemfsWritableFileStream` are embedded as pure functions over an explicit
volume value.  The backing `memfs-browser` `Volume` is an external library
whose code is not part of this repository; its operations (`statSync`,
`readFileSync`, `writeFileSync`, `mkdirSync`, `rmdirSync`, `rmSync`,
`unlinkSync`, `readdirSync`) are modelled from the spec's MemVolume
description (spec section 4.1) together with their standard Node/POSIX
semantics, as a tree of directory and file nodes.
-/

set_option autoImplicit false

namespace MemfsAdapter

/-! ## Paths

The adapter works on absolute slash-separated string paths.  `splitPath`
breaks a path into its non-empty components, mirroring how the memfs volume
resolves a path string component by component. -/

/-- Splits a character list on the slash character, accumulating the current
component in reverse; empty components are dropped. -/
def splitAux : List Char → List Char → List String
  | [], acc => if acc = [] then [] else [String.mk acc.reverse]
  | c :: cs, acc =>
    if c = '/' then
      (if acc = [] then splitAux cs [] else String.mk acc.reverse :: splitAux cs [])
    else splitAux cs (c :: acc)

/-- Non-empty slash-separated components of a path string. -/
def splitPath (s : String) : List String :=
  splitAux s.data []

/-- Child path construction from `MemfsDirectoryHandle`:
`this.path === '/' ? /name : this.path + '/' + name`. -/
def childPath (p name : String) : String :=
  if p = "/" then "/" ++ name else p ++ "/" ++ name

/-- Everything before the last slash of a character list; empty when there is
no slash.  This is `path.substring(0, path.lastIndexOf('/'))` for a
JavaScript string (a `lastIndexOf` of `-1` clamps to the empty substring). -/
def beforeLast (l : List Char) : List Char :=
  (((l.reverse.dropWhile (fun c => c ≠ '/'))).drop 1).reverse

/-- The directory part `path.substring(0, path.lastIndexOf('/'))` used by
`MemfsWritableFileStream.close`. -/
def dirOf (p : String) : String :=
  String.mk (beforeLast p.data)

/-- Byte contents of an ASCII string literal, as written by
`volume.writeFileSync(path, str)` (all spec fixtures are ASCII, where the
UTF-8 byte is the code point). -/
def strBytes (s : String) : List Nat :=
  s.data.map Char.toNat

/-! ## The volume

Modelled from the spec: the MemVolume node tree of section 4.1 ("a tree of
directory and file nodes holding byte buffers"), standing in for the
`memfs-browser` `Volume` object, whose source is not part of this
repository.  Directory entries are an insertion-ordered association list. -/

/-- A file-system node: a file holding bytes, or a directory holding an
insertion-ordered list of named children. -/
inductive Node where
  | file (bytes : List Nat)
  | dir (entries : List (String × Node))
deriving Repr

/-- Looks a name up in a directory entry list. -/
def lookupEntry : List (String × Node) → String → Option Node
  | [], _ => none
  | (k, n) :: es, name => if k = name then some n else lookupEntry es name

/-- Replaces the entry for a name in place, or appends it (preserving
insertion order, as a JavaScript object / Map of children does). -/
def setEntry : List (String × Node) → String → Node → List (String × Node)
  | [], name, n => [(name, n)]
  | (k, m) :: es, name, n =>
    if k = name then (name, n) :: es else (k, m) :: setEntry es name n

/-- Removes the entry for a name, if present. -/
def removeEntryList : List (String × Node) → String → List (String × Node)
  | [], _ => []
  | (k, m) :: es, name => if k = name then es else (k, m) :: removeEntryList es name

/-- Whether a node is a directory (`stats.isDirectory()`). -/
def isDirNode : Node → Bool
  | .file _ => false
  | .dir _ => true

/-- Volume-level error codes (`err.code` values the adapter dispatches on),
plus `other` for corners no adapter claim exercises. -/
inductive FsErr where
  | ENOENT | ENOTDIR | ENOTEMPTY | EISDIR | EEXIST | other
deriving DecidableEq, Repr

/-- Resolves a component list against a node: `ENOENT` for a missing entry,
`ENOTDIR` when descending through a file. -/
def resolve : Node → List String → Except FsErr Node
  | n, [] => .ok n
  | .file _, _ :: _ => .error .ENOTDIR
  | .dir es, c :: rest =>
    match lookupEntry es c with
    | none => .error .ENOENT
    | some child => resolve child rest

/-- Modelled from the spec: `stat(path) → metadata | ENOENT` (section 4.1);
the adapter only consumes `isDirectory()`, so the metadata is the kind. -/
def statSync (v : Node) (p : String) : Except FsErr Bool :=
  (resolve v (splitPath p)).map isDirNode

/-- Modelled from the spec: `read_file(path) → bytes | ENOENT | EISDIR`
(section 4.1). -/
def readFile (v : Node) (cs : List String) : Except FsErr (List Nat) :=
  match resolve v cs with
  | .ok (.file b) => .ok b
  | .ok (.dir _) => .error .EISDIR
  | .error e => .error e

/-- String-path wrapper for `readFile` (`volume.readFileSync`). -/
def readFileSync (v : Node) (p : String) : Except FsErr (List Nat) :=
  readFile v (splitPath p)

/-- Modelled from the spec: `write_file(path, bytes)` replaces contents,
creates the final component, and "fails `ENOENT` on missing parent"
(section 4.1); writing over a directory is `EISDIR`. -/
def writeFile : Node → List String → List Nat → Except FsErr Node
  | _, [], _ => .error .EISDIR
  | .file _, _ :: _, _ => .error .ENOTDIR
  | .dir es, c :: rest, b =>
    match rest with
    | [] =>
      match lookupEntry es c with
      | some (.dir _) => .error .EISDIR
      | _ => .ok (.dir (setEntry es c (.file b)))
    | _ :: _ =>
      match lookupEntry es c with
      | none => .error .ENOENT
      | some child => (writeFile child rest b).map fun ch => .dir (setEntry es c ch)

/-- String-path wrapper for `writeFile` (`volume.writeFileSync`). -/
def writeFileSync (v : Node) (p : String) (b : List Nat) : Except FsErr Node :=
  writeFile v (splitPath p) b

/-- A fresh chain of nested empty directories for the missing suffix of a
recursive `mkdir`. -/
def mkChain : List String → Node
  | [] => .dir []
  | c :: rest => .dir [(c, mkChain rest)]

/-- Modelled from the spec: `mkdir(path, recursive) → () | EEXIST | ENOENT |
ENOTDIR` (section 4.1), in the `recursive: true` form the adapter always
uses: missing components are created, an existing directory is accepted, an
existing file is `EEXIST`, descending through a file is `ENOTDIR`. -/
def mkdirRec : Node → List String → Except FsErr Node
  | .dir es, [] => .ok (.dir es)
  | .file _, [] => .error .EEXIST
  | .file _, _ :: _ => .error .ENOTDIR
  | .dir es, c :: rest =>
    match lookupEntry es c with
    | none => .ok (.dir (setEntry es c (mkChain rest)))
    | some child => (mkdirRec child rest).map fun ch => .dir (setEntry es c ch)

/-- String-path wrapper for `mkdirRec` (`volume.mkdirSync(p, recursive)`). -/
def mkdirSyncRec (v : Node) (p : String) : Except FsErr Node :=
  mkdirRec v (splitPath p)

/-- Modelled from the spec: `rmdir(path) → () | ENOENT | ENOTDIR | ENOTEMPTY`
(section 4.1).  Removing the root is outside every claim and maps to
`other`. -/
def rmdirA : Node → List String → Except FsErr Node
  | _, [] => .error .other
  | .file _, _ :: _ => .error .ENOTDIR
  | .dir es, c :: rest =>
    match rest with
    | [] =>
      match lookupEntry es c with
      | none => .error .ENOENT
      | some (.file _) => .error .ENOTDIR
      | some (.dir []) => .ok (.dir (removeEntryList es c))
      | some (.dir (_ :: _)) => .error .ENOTEMPTY
    | _ :: _ =>
      match lookupEntry es c with
      | none => .error .ENOENT
      | some child => (rmdirA child rest).map fun ch => .dir (setEntry es c ch)

/-- Modelled from the spec: `unlink(path) → () | ENOENT | EISDIR`
(section 4.1).  Removing the root maps to `other`. -/
def unlinkA : Node → List String → Except FsErr Node
  | _, [] => .error .other
  | .file _, _ :: _ => .error .ENOTDIR
  | .dir es, c :: rest =>
    match rest with
    | [] =>
      match lookupEntry es c with
      | none => .error .ENOENT
      | some (.dir _) => .error .EISDIR
      | some (.file _) => .ok (.dir (removeEntryList es c))
    | _ :: _ =>
      match lookupEntry es c with
      | none => .error .ENOENT
      | some child => (unlinkA child rest).map fun ch => .dir (setEntry es c ch)

/-- Modelled from the spec: recursive forced removal
(`volume.rmSync(p, recursive: true, force: true)`): removes the named
subtree, and `force` suppresses `ENOENT` for a missing target. -/
def rmRecA : Node → List String → Except FsErr Node
  | _, [] => .error .other
  | .file _, _ :: _ => .error .ENOTDIR
  | .dir es, c :: rest =>
    match rest with
    | [] => .ok (.dir (removeEntryList es c))
    | _ :: _ =>
      match lookupEntry es c with
      | none => .ok (.dir es)
      | some child => (rmRecA child rest).map fun ch => .dir (setEntry es c ch)

/-- Modelled from the spec: `readdir(path)` returns the current entry names
in insertion order (section 4.1). -/
def readdirSync (v : Node) (p : String) : Except FsErr (List String) :=
  match resolve v (splitPath p) with
  | .ok (.dir es) => .ok (es.map Prod.fst)
  | .ok (.file _) => .error .ENOTDIR
  | .error e => .error e

/-! ## The adapter handle layer (`src/memfs-adapter.ts`)

Each method of `MemfsFileHandle` / `MemfsDirectoryHandle` becomes a function
of the handle's path and the current volume; methods that mutate the volume
return the new one.  A thrown `DOMException` / `Error` becomes an `AErr`
error value; in this embedding an operation that fails leaves the volume as
it was (the result carries no new volume). -/

/-- Adapter-level errors: the `DOMException` names the adapter throws, the
`Error('Stream is closed')` state error, the JavaScript `RangeError` a
`TypedArray.set` with a negative offset raises, and re-thrown raw volume
errors. -/
inductive AErr where
  | NotFoundError
  | TypeMismatchError
  | InvalidModificationError
  | StreamClosed
  | RangeError
  | Raw (e : FsErr)
deriving DecidableEq, Repr

/-- `MemfsFileHandle.getFile`: reads the file's bytes, translating `ENOENT`
to `NotFoundError` and re-throwing anything else. -/
def getFile (v : Node) (p : String) : Except AErr (List Nat) :=
  match readFileSync v p with
  | .ok b => .ok b
  | .error .ENOENT => .error .NotFoundError
  | .error e => .error (.Raw e)

/-- `MemfsDirectoryHandle.getFileHandle`: a directory at the child path is
`TypeMismatchError`; a missing child is created as an empty file when
`options.create` holds and is `NotFoundError` otherwise.  The result is the
opened child path together with the (possibly updated) volume. -/
def getFileHandle (v : Node) (p name : String) (create : Bool) :
    Except AErr (String × Node) :=
  let fp := childPath p name
  match resolve v (splitPath fp) with
  | .ok (.dir _) => .error .TypeMismatchError
  | .ok (.file _) => .ok (fp, v)
  | .error .ENOENT =>
    if create then
      match writeFileSync v fp [] with
      | .ok v' => .ok (fp, v')
      | .error e => .error (.Raw e)
    else .error .NotFoundError
  | .error e => .error (.Raw e)

/-- `MemfsDirectoryHandle.getDirectoryHandle`: a non-directory at the child
path is `TypeMismatchError`; a missing child is created with a recursive
`mkdir` when `options.create` holds and is `NotFoundError` otherwise. -/
def getDirectoryHandle (v : Node) (p name : String) (create : Bool) :
    Except AErr (String × Node) :=
  let dp := childPath p name
  match resolve v (splitPath dp) with
  | .ok (.file _) => .error .TypeMismatchError
  | .ok (.dir _) => .ok (dp, v)
  | .error .ENOENT =>
    if create then
      match mkdirSyncRec v dp with
      | .ok v' => .ok (dp, v')
      | .error e => .error (.Raw e)
    else .error .NotFoundError
  | .error e => .error (.Raw e)

/-- `MemfsDirectoryHandle.removeEntry`: stats the entry, then removes a
directory with `rmdirSync` (or `rmSync` recursive+force when
`options.recursive`) and a file with `unlinkSync`; the surrounding catch
maps `ENOENT` to `NotFoundError` and `ENOTEMPTY` to
`InvalidModificationError`. -/
def removeEntry (v : Node) (p name : String) (recursive : Bool) :
    Except AErr Node :=
  let cs := splitPath (childPath p name)
  match resolve v cs with
  | .error .ENOENT => .error .NotFoundError
  | .error e => .error (.Raw e)
  | .ok n =>
    let r :=
      if isDirNode n then
        if recursive then rmRecA v cs else rmdirA v cs
      else unlinkA v cs
    match r with
    | .ok v' => .ok v'
    | .error .ENOENT => .error .NotFoundError
    | .error .ENOTEMPTY => .error .InvalidModificationError
    | .error e => .error (.Raw e)

/-- `MemfsDirectoryHandle.keys`: the entry names from `readdirSync`, with
`ENOENT` mapped to `NotFoundError`. -/
def keysList (v : Node) (p : String) : Except AErr (List String) :=
  match readdirSync v p with
  | .ok names => .ok names
  | .error .ENOENT => .error .NotFoundError
  | .error e => .error (.Raw e)

/-- The per-entry loop of `MemfsDirectoryHandle.values`: each name is
stat-ed and yielded as a child path plus its kind (`true` = directory). -/
def valuesAux (v : Node) (p : String) : List String → Except AErr (List (String × Bool))
  | [] => .ok []
  | n :: ns =>
    match statSync v (childPath p n) with
    | .error .ENOENT => .error .NotFoundError
    | .error e => .error (.Raw e)
    | .ok isd => (valuesAux v p ns).map fun l => (childPath p n, isd) :: l

/-- `MemfsDirectoryHandle.values`: enumerates the directory and yields one
handle (path, kind) per entry. -/
def valuesList (v : Node) (p : String) : Except AErr (List (String × Bool)) :=
  match readdirSync v p with
  | .error .ENOENT => .error .NotFoundError
  | .error e => .error (.Raw e)
  | .ok names => valuesAux v p names

/-- State-passing form of `keys`: the read result together with the volume
after the call (the method performs no volume mutation). -/
def keysOp (v : Node) (p : String) : Except AErr (List String) × Node :=
  (keysList v p, v)

/-- State-passing form of `values`. -/
def valuesOp (v : Node) (p : String) : Except AErr (List (String × Bool)) × Node :=
  (valuesList v p, v)

/-- State-passing form of `getFile`. -/
def getFileOp (v : Node) (p : String) : Except AErr (List Nat) × Node :=
  (getFile v p, v)

/-- `createMemoryFileSystem`: a fresh volume with `/sandbox` and `/tmp` and
the three pre-populated `/sandbox` files. -/
def createMemoryFileSystem : Except FsErr Node :=
  (mkdirSyncRec (.dir []) "/sandbox").bind fun v1 =>
  (mkdirSyncRec v1 "/tmp").bind fun v2 =>
  (writeFileSync v2 "/sandbox/input.txt" (strBytes "hello from input.txt\n")).bind fun v3 =>
  (writeFileSync v3 "/sandbox/input2.txt" (strBytes "hello from input2.txt\n")).bind fun v4 =>
  writeFileSync v4 "/sandbox/notadir" (strBytes "")

/-! ## The writable stream (`MemfsWritableFileStream`)

The stream state is its buffer, cursor and closed flag; the path and volume
of the underlying handle are passed explicitly where a method uses them.
Positions are integers, since JavaScript numbers are signed and `seek`
stores them unvalidated. -/

/-- The mutable state of a `MemfsWritableFileStream`. -/
structure WStream where
  data : List Nat
  position : Int
  closed : Bool
deriving Repr

/-- `TypedArray.set(src, off)` on a buffer it fits into: overwrites
`src.length` bytes at offset `off`, leaving the rest unchanged. -/
def listSet (target : List Nat) (off : Nat) (src : List Nat) : List Nat :=
  target.take off ++ src ++ target.drop (off + src.length)

/-- The `MemfsWritableFileStream` constructor (via
`MemfsFileHandle.createWritable`): an empty buffer at cursor 0, except that
`keepExistingData` pre-loads the existing file bytes and puts the cursor at
their end; a missing file is tolerated (`ENOENT` swallowed), any other read
error is re-thrown out of the constructor. -/
def createWritable (v : Node) (p : String) (keepExistingData : Bool) :
    Except AErr WStream :=
  if keepExistingData then
    match readFileSync v p with
    | .ok b => .ok ⟨b, (b.length : Int), false⟩
    | .error .ENOENT => .ok ⟨[], 0, false⟩
    | .error e => .error (.Raw e)
  else .ok ⟨[], 0, false⟩

/-- `MemfsWritableFileStream.write`: fails on a closed stream; otherwise
takes the explicit position if supplied (else the cursor), grows the buffer
to `position + len` zero-filled if needed, copies the bytes in and moves the
cursor to the end of the write.  A negative effective position makes the
underlying `TypedArray.set` throw a `RangeError` after the growth step, with
the cursor untouched. -/
def wsWrite (s : WStream) (pos? : Option Int) (d : List Nat) :
    WStream × Option AErr :=
  if s.closed then (s, some .StreamClosed)
  else
    let q : Int := pos?.getD s.position
    let required : Int := q + (d.length : Int)
    let data1 : List Nat :=
      if (s.data.length : Int) < required then
        s.data ++ List.replicate (required.toNat - s.data.length) 0
      else s.data
    if q < 0 then ({ s with data := data1 }, some .RangeError)
    else ({ s with data := listSet data1 q.toNat d, position := q + (d.length : Int) }, none)

/-- `MemfsWritableFileStream.seek`: fails on a closed stream, otherwise
stores the position unvalidated. -/
def wsSeek (s : WStream) (p : Int) : WStream × Option AErr :=
  if s.closed then (s, some .StreamClosed)
  else ({ s with position := p }, none)

/-- `MemfsWritableFileStream.truncate`: fails on a closed stream; otherwise
shrinks via `slice(0, size)` (a negative size counts from the end, as in
JavaScript) or grows zero-filled, then clamps the cursor down to `size` if
it exceeded it. -/
def wsTruncate (s : WStream) (size : Int) : WStream × Option AErr :=
  if s.closed then (s, some .StreamClosed)
  else
    let n : Int := (s.data.length : Int)
    let data' : List Nat :=
      if size < n then
        s.data.take (if size < 0 then (n + size).toNat else size.toNat)
      else if n < size then
        s.data ++ List.replicate (size.toNat - s.data.length) 0
      else s.data
    let pos' : Int := if size < s.position then size else s.position
    ({ s with data := data', position := pos' }, none)

/-- `MemfsWritableFileStream.close`: a second close returns at once;
otherwise the stream is marked closed first, the parent directory is
ensured with a recursive `mkdir` (an `EEXIST` is tolerated, the guard skips
an empty or root parent), and the buffer is published to the volume with
`writeFileSync`. -/
def wsClose (s : WStream) (p : String) (v : Node) :
    (WStream × Node) × Option AErr :=
  if s.closed then ((s, v), none)
  else
    let s' : WStream := { s with closed := true }
    let dir := dirOf p
    let v1r : Except FsErr Node :=
      if dir ≠ "" ∧ dir ≠ "/" then
        match mkdirSyncRec v dir with
        | .ok v' => .ok v'
        | .error .EEXIST => .ok v
        | .error e => .error e
      else .ok v
    match v1r with
    | .error e => ((s', v), some (.Raw e))
    | .ok v1 =>
      match writeFileSync v1 p s.data with
      | .ok v2 => ((s', v2), none)
      | .error e => ((s', v1), some (.Raw e))

/-- One buffered-stream call, for sequences of calls on an open stream; the
volume component is what the call leaves in the backing volume. -/
inductive WOp where
  | write (pos? : Option Int) (d : List Nat)
  | seek (p : Int)
  | truncate (size : Int)

/-- Applies one stream call to the stream/volume pair (`write`, `seek` and
`truncate` never touch the volume, per the source methods). -/
def applyOp (sv : WStream × Node) (op : WOp) : WStream × Node :=
  match op with
  | .write pos? d => ((wsWrite sv.1 pos? d).1, sv.2)
  | .seek p => ((wsSeek sv.1 p).1, sv.2)
  | .truncate size => ((wsTruncate sv.1 size).1, sv.2)

/-- Applies a sequence of stream calls. -/
def runOps : WStream × Node → List WOp → WStream × Node
  | sv, [] => sv
  | sv, op :: ops => runOps (applyOp sv op) ops

/-! ## Helper lemmas about the volume -/

theorem lookup_setEntry_self (es : List (String × Node)) (k : String) (n : Node) :
    lookupEntry (setEntry es k n) k = some n := by
  induction es with
  | nil => simp [setEntry, lookupEntry]
  | cons e es ih =>
    obtain ⟨k', m⟩ := e
    by_cases hk : k' = k <;> simp [setEntry, lookupEntry, hk, ih]

theorem lookup_setEntry_other (es : List (String × Node)) (k k' : String) (n : Node)
    (hne : k' ≠ k) : lookupEntry (setEntry es k n) k' = lookupEntry es k' := by
  have hkk : k ≠ k' := Ne.symm hne
  induction es with
  | nil => simp [setEntry, lookupEntry, hkk]
  | cons e es ih =>
    obtain ⟨k0, m⟩ := e
    by_cases h0 : k0 = k
    · subst h0
      simp [setEntry, lookupEntry, hkk]
    · simp [setEntry, lookupEntry, h0, ih]

theorem setEntry_self (es : List (String × Node)) (k : String) (n : Node)
    (h : lookupEntry es k = some n) : setEntry es k n = es := by
  induction es with
  | nil => simp [lookupEntry] at h
  | cons e es ih =>
    obtain ⟨k', m⟩ := e
    by_cases hk : k' = k
    · subst hk
      simp [lookupEntry] at h
      simp [setEntry, h]
    · simp [lookupEntry, hk] at h
      simp [setEntry, hk, ih h]

theorem resolve_dir_cons {es : List (String × Node)} {c : String} {ch : Node}
    (h : lookupEntry es c = some ch) (l : List String) :
    resolve (.dir es) (c :: l) = resolve ch l := by
  simp [resolve, h]

theorem resolve_append (bs as : List String) (v : Node) :
    resolve v (as ++ bs) = (resolve v as).bind (fun n => resolve n bs) := by
  induction as generalizing v with
  | nil => simp [resolve, Except.bind]
  | cons c rest ih =>
    cases v with
    | file b => simp [resolve, Except.bind]
    | dir es =>
      cases hle : lookupEntry es c with
      | none => simp [resolve, hle, Except.bind]
      | some child => simp [resolve, hle, ih]

theorem writeFile_read {b : List Nat} :
    ∀ (cs : List String) (v v' : Node), writeFile v cs b = .ok v' →
      readFile v' cs = .ok b := by
  intro cs
  induction cs with
  | nil => intro v v' h; simp [writeFile] at h
  | cons c rest ih =>
    intro v v' h
    cases v with
    | file bs => simp [writeFile] at h
    | dir es =>
      cases rest with
      | nil =>
        cases hle : lookupEntry es c with
        | none =>
          simp [writeFile, hle] at h
          subst h
          simp [readFile, resolve, lookup_setEntry_self]
        | some m =>
          cases m with
          | file mb =>
            simp [writeFile, hle] at h
            subst h
            simp [readFile, resolve, lookup_setEntry_self]
          | dir mes => simp [writeFile, hle] at h
      | cons c2 rest' =>
        cases hle : lookupEntry es c with
        | none => simp [writeFile, hle] at h
        | some child =>
          simp only [writeFile, hle] at h
          cases hw : writeFile child (c2 :: rest') b with
          | error e => rw [hw] at h; simp [Except.map] at h
          | ok ch =>
            rw [hw] at h
            simp [Except.map] at h
            subst h
            rw [show readFile (Node.dir (setEntry es c ch)) (c :: c2 :: rest')
                  = readFile ch (c2 :: rest') by
              simp [readFile, resolve_dir_cons (lookup_setEntry_self es c ch)]]
            exact ih child ch hw

theorem writeFile_total {c : List Nat} (b : List Nat) :
    ∀ (cs : List String) (v : Node), cs ≠ [] → resolve v cs = .ok (.file c) →
      ∃ v', writeFile v cs b = .ok v' := by
  intro cs
  induction cs with
  | nil => intro v hne _; exact absurd rfl hne
  | cons c1 rest ih =>
    intro v _ hres
    cases v with
    | file bs => cases rest <;> simp [resolve] at hres
    | dir es =>
      cases hle : lookupEntry es c1 with
      | none => simp [resolve, hle] at hres
      | some child =>
        rw [resolve_dir_cons hle] at hres
        cases rest with
        | nil =>
          simp [resolve] at hres
          subst hres
          exact ⟨Node.dir (setEntry es c1 (Node.file b)), by simp [writeFile, hle]⟩
        | cons c2 rest' =>
          obtain ⟨v2, hv2⟩ := ih child (by simp) hres
          exact ⟨Node.dir (setEntry es c1 v2), by simp [writeFile, hle, hv2, Except.map]⟩

theorem mkdirRec_of_resolve_dir :
    ∀ (cs : List String) (v : Node) (es : List (String × Node)),
      resolve v cs = .ok (.dir es) → mkdirRec v cs = .ok v := by
  intro cs
  induction cs with
  | nil =>
    intro v es h
    simp [resolve] at h
    subst h
    simp [mkdirRec]
  | cons c rest ih =>
    intro v es h
    cases v with
    | file b => simp [resolve] at h
    | dir es0 =>
      cases hle : lookupEntry es0 c with
      | none => simp [resolve, hle] at h
      | some child =>
        rw [resolve_dir_cons hle] at h
        simp [mkdirRec, hle, ih child es h, Except.map, setEntry_self es0 c child hle]

theorem resolve_dropLast_dir {c : List Nat} :
    ∀ (cs : List String) (v : Node), cs ≠ [] → resolve v cs = .ok (.file c) →
      ∃ es, resolve v cs.dropLast = .ok (.dir es) := by
  intro cs v hne hres
  obtain ⟨h⟩ : Nonempty (cs.dropLast ++ [cs.getLast hne] = cs) :=
    ⟨List.dropLast_append_getLast hne⟩
  rw [← h, resolve_append] at hres
  cases hm : resolve v cs.dropLast with
  | error e => rw [hm] at hres; simp [Except.bind] at hres
  | ok m =>
    rw [hm] at hres
    simp only [Except.bind] at hres
    cases m with
    | file mb => simp [resolve] at hres
    | dir mes => exact ⟨mes, rfl⟩

theorem rmdirA_nonempty :
    ∀ (cs : List String) (v : Node) (e : String × Node) (es : List (String × Node)),
      cs ≠ [] → resolve v cs = .ok (.dir (e :: es)) →
      rmdirA v cs = .error .ENOTEMPTY := by
  intro cs
  induction cs with
  | nil => intro v e es hne _; exact absurd rfl hne
  | cons c rest ih =>
    intro v e es _ hres
    cases v with
    | file b => cases rest <;> simp [resolve] at hres
    | dir es0 =>
      cases hle : lookupEntry es0 c with
      | none => simp [resolve, hle] at hres
      | some child =>
        rw [resolve_dir_cons hle] at hres
        cases rest with
        | nil =>
          simp [resolve] at hres
          subst hres
          simp [rmdirA, hle]
        | cons c2 rest' =>
          simp [rmdirA, hle, ih child e es (by simp) hres, Except.map]

theorem mkdirRec_creates :
    ∀ (sp : List String) (v : Node) (es : List (String × Node)) (name : String),
      resolve v sp = .ok (.dir es) → lookupEntry es name = none →
      ∃ v', mkdirRec v (sp ++ [name]) = .ok v' ∧
        resolve v' (sp ++ [name]) = .ok (.dir []) := by
  intro sp
  induction sp with
  | nil =>
    intro v es name hres hnone
    simp [resolve] at hres
    subst hres
    refine ⟨.dir (setEntry es name (.dir [])), ?_, ?_⟩
    · simp [mkdirRec, hnone, mkChain]
    · simp [resolve, lookup_setEntry_self]
  | cons c sp' ih =>
    intro v es name hres hnone
    cases v with
    | file b => simp [resolve] at hres
    | dir es0 =>
      cases hle : lookupEntry es0 c with
      | none => simp [resolve, hle] at hres
      | some child =>
        rw [resolve_dir_cons hle] at hres
        obtain ⟨v', hmk, hres'⟩ := ih child es name hres hnone
        refine ⟨.dir (setEntry es0 c v'), ?_, ?_⟩
        · simp [mkdirRec, hle, hmk, Except.map]
        · rw [show ((c :: sp') ++ [name]) = c :: (sp' ++ [name]) by simp,
            resolve_dir_cons (lookup_setEntry_self es0 c v')]
          exact hres'

theorem writeFile_creates (b : List Nat) :
    ∀ (sp : List String) (v : Node) (es : List (String × Node)) (name : String),
      resolve v sp = .ok (.dir es) → lookupEntry es name = none →
      ∃ v', writeFile v (sp ++ [name]) b = .ok v' ∧
        resolve v' (sp ++ [name]) = .ok (.file b) := by
  intro sp
  induction sp with
  | nil =>
    intro v es name hres hnone
    simp [resolve] at hres
    subst hres
    refine ⟨.dir (setEntry es name (.file b)), ?_, ?_⟩
    · simp [writeFile, hnone]
    · simp [resolve, lookup_setEntry_self]
  | cons c sp' ih =>
    intro v es name hres hnone
    cases v with
    | file bs => simp [resolve] at hres
    | dir es0 =>
      cases hle : lookupEntry es0 c with
      | none => simp [resolve, hle] at hres
      | some child =>
        rw [resolve_dir_cons hle] at hres
        obtain ⟨v', hw, hres'⟩ := ih child es name hres hnone
        refine ⟨.dir (setEntry es0 c v'), ?_, ?_⟩
        · have hne : sp' ++ [name] ≠ ([] : List String) := by simp
          rw [show ((c :: sp') ++ [name]) = c :: (sp' ++ [name]) by simp]
          cases hsp : sp' ++ [name] with
          | nil => exact absurd hsp hne
          | cons x xs =>
            rw [hsp] at hw
            simp [writeFile, hle, hw, Except.map]
        · rw [show ((c :: sp') ++ [name]) = c :: (sp' ++ [name]) by simp,
            resolve_dir_cons (lookup_setEntry_self es0 c v')]
          exact hres'

/-! ## Helper lemmas about the writable stream -/

theorem applyOp_snd (sv : WStream × Node) (op : WOp) : (applyOp sv op).2 = sv.2 := by
  cases op <;> rfl

theorem runOps_snd : ∀ (ops : List WOp) (sv : WStream × Node),
    (runOps sv ops).2 = sv.2 := by
  intro ops
  induction ops with
  | nil => intro sv; rfl
  | cons op ops ih =>
    intro sv
    rw [runOps, ih, applyOp_snd]

/-- Closed form of a successful `write` at a non-negative effective
position: the result buffer is the prefix before the position, a zero fill
for any gap past the old end, the written bytes, and the untouched old
suffix. -/
theorem wsWrite_eq (s : WStream) (pos? : Option Int) (d : List Nat)
    (hcl : s.closed = false) (q : Int) (hq : pos?.getD s.position = q) (h0 : 0 ≤ q) :
    wsWrite s pos? d =
      ({ s with
          data := s.data.take q.toNat ++ List.replicate (q.toNat - s.data.length) 0
                    ++ d ++ s.data.drop (q.toNat + d.length),
          position := q + (d.length : Int) }, none) := by
  have hqq : (q.toNat : Int) = q := Int.toNat_of_nonneg h0
  rw [wsWrite]
  simp only [hcl, Bool.false_eq_true, if_false, hq]
  rw [if_neg (show ¬ q < 0 by omega)]
  by_cases hgrow : (s.data.length : Int) < q + (d.length : Int)
  · rw [if_pos hgrow]
    have hreq : (q + (d.length : Int)).toNat = q.toNat + d.length := by omega
    have hlt : s.data.length < q.toNat + d.length := by omega
    rw [hreq]
    have h1 : (s.data ++ List.replicate (q.toNat + d.length - s.data.length) 0).length
        = q.toNat + d.length := by
      rw [List.length_append, List.length_replicate]
      omega
    have hdata : listSet (s.data ++ List.replicate (q.toNat + d.length - s.data.length) 0)
          q.toNat d
        = s.data.take q.toNat ++ List.replicate (q.toNat - s.data.length) 0
            ++ d ++ s.data.drop (q.toNat + d.length) := by
      rw [listSet, List.drop_eq_nil_of_le (le_of_eq h1),
        List.drop_eq_nil_of_le (le_of_lt hlt),
        List.take_append_eq_append_take, List.take_replicate,
        show (q.toNat - s.data.length) ⊓ (q.toNat + d.length - s.data.length)
          = q.toNat - s.data.length by omega]
    rw [hdata]
  · rw [if_neg hgrow]
    have hle : q.toNat + d.length ≤ s.data.length := by omega
    have hdata : listSet s.data q.toNat d
        = s.data.take q.toNat ++ List.replicate (q.toNat - s.data.length) 0
            ++ d ++ s.data.drop (q.toNat + d.length) := by
      rw [listSet, show q.toNat - s.data.length = 0 from by omega]
      simp [List.append_assoc]
    rw [hdata]

/-- A successful first `close` over a path whose file already exists: the
parent chain is already in place, so the recursive `mkdir` leaves the
volume alone and the buffer is published. -/
theorem wsClose_ok_of_file (s : WStream) (p : String) (v : Node) (c : List Nat)
    (hcl : s.closed = false) (hne : splitPath p ≠ [])
    (hdp : splitPath (dirOf p) = (splitPath p).dropLast)
    (hres : resolve v (splitPath p) = .ok (.file c)) :
    ∃ v', wsClose s p v = (({ s with closed := true }, v'), none) ∧
      readFileSync v' p = .ok s.data := by
  obtain ⟨v', hw⟩ := writeFile_total s.data (splitPath p) v hne hres
  have hread : readFileSync v' p = .ok s.data := writeFile_read (splitPath p) v v' hw
  have hmk : mkdirSyncRec v (dirOf p) = .ok v ∨ mkdirSyncRec v (dirOf p) = .error .EEXIST := by
    rw [mkdirSyncRec, hdp]
    rcases List.eq_nil_or_concat (splitPath p) with hnil | ⟨sp, last, hsplit⟩
    · exact absurd hnil hne
    · rw [List.concat_eq_append] at hsplit
      rw [hsplit, List.dropLast_concat]
      rw [hsplit, resolve_append] at hres
      cases hm : resolve v sp with
      | error e => rw [hm] at hres; simp [Except.bind] at hres
      | ok m =>
        rw [hm] at hres
        simp only [Except.bind] at hres
        cases m with
        | file mb => simp [resolve] at hres
        | dir mes => exact .inl (mkdirRec_of_resolve_dir sp v mes hm)
  rw [wsClose]
  simp only [hcl, Bool.false_eq_true, if_false]
  have hpub : writeFileSync v p s.data = Except.ok v' := hw
  by_cases hdir : dirOf p ≠ "" ∧ dirOf p ≠ "/"
  · rcases hmk with hmk | hmk
    · simp only [if_pos hdir, hmk, hpub]
      exact ⟨v', rfl, hread⟩
    · simp only [if_pos hdir, hmk, hpub]
      exact ⟨v', rfl, hread⟩
  · simp only [if_neg hdir, hpub]
    exact ⟨v', rfl, hread⟩

/-! ## Claim theorems -/

/-- C2: on an open `MemfsWritableFileStream` with buffer length `n` and
cursor `c`, a `write` of `len` bytes `d` at effective position `q` (the
supplied explicit position, else the cursor) succeeds, grows the buffer to
`max n (q + len)` with the gap `[n, q)` zero-filled, places `d` at
`[q, q + len)`, leaves every other existing byte unchanged, and sets the
cursor to `q + len`; and a `seek` to any position at or beyond the buffer
length succeeds without changing the buffer. -/
theorem write_expands_and_places (s : WStream) (pos? : Option Int) (d : List Nat)
    (hcl : s.closed = false) (q : Int) (hq : pos?.getD s.position = q) (h0 : 0 ≤ q) :
    (wsWrite s pos? d).2 = none ∧
    (wsWrite s pos? d).1.data.length = max s.data.length (q.toNat + d.length) ∧
    (∀ i : Nat, i < d.length → (wsWrite s pos? d).1.data[q.toNat + i]? = d[i]?) ∧
    (∀ i : Nat, s.data.length ≤ i → i < q.toNat →
      (wsWrite s pos? d).1.data[i]? = some 0) ∧
    (∀ i : Nat, i < s.data.length → (i < q.toNat ∨ q.toNat + d.length ≤ i) →
      (wsWrite s pos? d).1.data[i]? = s.data[i]?) ∧
    (wsWrite s pos? d).1.position = q + (d.length : Int) ∧
    (∀ pp : Int, (s.data.length : Int) ≤ pp →
      wsSeek s pp = ({ s with position := pp }, none)) := by
  rw [wsWrite_eq s pos? d hcl q hq h0]
  have hlena : (s.data.take q.toNat).length = min q.toNat s.data.length := by
    simp [List.length_take]
  have hlenab : (s.data.take q.toNat ++ List.replicate (q.toNat - s.data.length) 0).length
      = q.toNat := by
    simp [List.length_append, List.length_take, List.length_replicate]
    omega
  refine ⟨rfl, ?_, ?_, ?_, ?_, rfl, ?_⟩
  · simp only [List.length_append, List.length_take, List.length_replicate,
      List.length_drop]
    omega
  · intro i hi
    rw [List.append_assoc, List.getElem?_append_right (by rw [hlenab]; omega)]
    rw [hlenab, List.getElem?_append, if_pos (by omega : q.toNat + i - q.toNat < d.length)]
    rw [show q.toNat + i - q.toNat = i by omega]
  · intro i hni hiq
    rw [List.append_assoc, List.append_assoc,
      List.getElem?_append_right (by rw [hlena]; omega)]
    rw [hlena, List.getElem?_append,
      if_pos (by rw [List.length_replicate]; omega), List.getElem?_replicate,
      if_pos (by omega)]
  · intro i hin hout
    rcases hout with hlt | hge
    · rw [List.append_assoc, List.append_assoc,
        List.getElem?_append, if_pos (by rw [hlena]; omega),
        List.getElem?_take, if_pos hlt]
    · rw [List.getElem?_append_right (by
        rw [List.length_append, hlenab]; omega)]
      rw [List.length_append, hlenab, List.getElem?_drop,
        show q.toNat + d.length + (i - (q.toNat + d.length)) = i by omega]
  · intro pp _
    rw [wsSeek]
    simp [hcl]

/-- C9: on an open stream, `truncate(size)` (a non-negative size) resizes
the buffer to exactly `size`, preserving the first `min n size` bytes,
zero-filling `[n, size)` when growing, and clamps the cursor to
`min c size`, so the cursor never exceeds the buffer length afterwards. -/
theorem truncate_resizes (s : WStream) (size : Int)
    (hcl : s.closed = false) (hsz : 0 ≤ size) :
    (wsTruncate s size).2 = none ∧
    (wsTruncate s size).1.data.length = size.toNat ∧
    (∀ i : Nat, i < min s.data.length size.toNat →
      (wsTruncate s size).1.data[i]? = s.data[i]?) ∧
    (∀ i : Nat, s.data.length ≤ i → i < size.toNat →
      (wsTruncate s size).1.data[i]? = some 0) ∧
    (wsTruncate s size).1.position = min s.position size ∧
    (wsTruncate s size).1.position ≤ ((wsTruncate s size).1.data.length : Int) := by
  have hmin : (if size < s.position then size else s.position) = min s.position size := by
    rcases lt_or_le size s.position with h | h
    · rw [if_pos h, min_eq_right (le_of_lt h)]
    · rw [if_neg (not_lt_of_le h), min_eq_left h]
  rw [wsTruncate]
  simp only [hcl, Bool.false_eq_true, if_false]
  by_cases hlt : size < (s.data.length : Int)
  · rw [if_pos hlt, if_neg (show ¬ size < 0 by omega)]
    refine ⟨by trivial, ?_, ?_, ?_, by simp [hmin], ?_⟩
    · simp only [List.length_take]; omega
    · intro i hi
      rw [List.getElem?_take, if_pos (by omega)]
    · intro i hni hisz
      omega
    · simp only [hmin, List.length_take]
      omega
  · rw [if_neg hlt]
    by_cases hgt : (s.data.length : Int) < size
    · rw [if_pos hgt]
      refine ⟨by trivial, ?_, ?_, ?_, by simp [hmin], ?_⟩
      · simp only [List.length_append, List.length_replicate]; omega
      · intro i hi
        rw [List.getElem?_append, if_pos (by omega)]
      · intro i hni hisz
        rw [List.getElem?_append_right hni, List.getElem?_replicate,
          if_pos (by omega)]
      · simp only [hmin, List.length_append, List.length_replicate]
        omega
    · rw [if_neg hgt]
      have heq : (s.data.length : Int) = size := by omega
      refine ⟨by trivial, by omega, ?_, ?_, by simp [hmin], ?_⟩
      · intro i hi; rfl
      · intro i hni hisz; omega
      · simp only [hmin]
        omega

/-- C10: `seek(p)` errors exactly when the stream is closed; on an open
stream any position, negative or far beyond the buffer, is stored
unvalidated with the buffer untouched. -/
theorem seek_unvalidated (s : WStream) (p : Int) :
    (s.closed = false → wsSeek s p = ({ s with position := p }, none)) ∧
    (s.closed = true → wsSeek s p = (s, some .StreamClosed)) ∧
    ((wsSeek s p).2 ≠ none ↔ s.closed = true) := by
  refine ⟨fun h => by rw [wsSeek]; simp [h], fun h => by rw [wsSeek]; simp [h], ?_⟩
  cases hcl : s.closed <;> rw [wsSeek] <;> simp [hcl]

/-- C3: once a `close` has completed the stream is marked closed; on a
closed stream every `write`, `seek` and `truncate` fails with the
stream-closed state error and changes nothing, and a second `close` is a
successful no-op that leaves both the buffer and the volume untouched. -/
theorem closed_stream_rejects (s : WStream) (p : String) (v : Node) :
    ((wsClose s p v).1.1.closed = true) ∧
    (∀ s1 : WStream, s1.closed = true →
      (∀ (pos? : Option Int) (d : List Nat),
        wsWrite s1 pos? d = (s1, some .StreamClosed)) ∧
      (∀ q : Int, wsSeek s1 q = (s1, some .StreamClosed)) ∧
      (∀ sz : Int, wsTruncate s1 sz = (s1, some .StreamClosed)) ∧
      (∀ (p1 : String) (v1 : Node), wsClose s1 p1 v1 = ((s1, v1), none))) := by
  constructor
  · rw [wsClose]
    by_cases hcl : s.closed
    · simp [hcl]
    · simp only [hcl, Bool.false_eq_true, if_false]
      cases hmk : (if dirOf p ≠ "" ∧ dirOf p ≠ "/" then
          match mkdirSyncRec v (dirOf p) with
          | .ok v' => Except.ok v'
          | .error .EEXIST => Except.ok v
          | .error e => Except.error e
        else Except.ok v) with
      | error e => simp
      | ok v1 =>
        cases hw : writeFileSync v1 p s.data with
        | ok v2 => simp [hw]
        | error e => simp [hw]
  · intro s1 h1
    exact ⟨fun pos? d => by rw [wsWrite]; simp [h1],
      fun q => by rw [wsSeek]; simp [h1],
      fun sz => by rw [wsTruncate]; simp [h1],
      fun p1 v1 => by rw [wsClose]; simp [h1]⟩

/-- C7: `keys`, `values` and `getFile` are pure reads: they leave the
volume untouched, and two back-to-back calls with no mutation in between
return identical results (names in identical order, the same kind per
entry, the same bytes). -/
theorem reads_are_pure (v : Node) (p q : String) :
    (keysOp v p).2 = v ∧
    (keysOp ((keysOp v p).2) p).1 = (keysOp v p).1 ∧
    (valuesOp v p).2 = v ∧
    (valuesOp ((valuesOp v p).2) p).1 = (valuesOp v p).1 ∧
    (getFileOp v q).2 = v ∧
    (getFileOp ((getFileOp v q).2) q).1 = (getFileOp v q).1 :=
  ⟨rfl, rfl, rfl, rfl, rfl, rfl⟩

/-- The volume value `createMemoryFileSystem` builds. -/
def memRoot : Node :=
  .dir
    [("sandbox", .dir
      [("input.txt", .file (strBytes "hello from input.txt\n")),
       ("input2.txt", .file (strBytes "hello from input2.txt\n")),
       ("notadir", .file [])]),
     ("tmp", .dir [])]

/-- C8: `createMemoryFileSystem` always succeeds and yields a root volume
with directories `/sandbox` and `/tmp`, where `/sandbox` holds
`input.txt` with exactly the bytes of `hello from input.txt\n`,
`input2.txt` with exactly the bytes of `hello from input2.txt\n`, and the
empty file `notadir`. -/
theorem create_memory_fs_layout :
    createMemoryFileSystem = .ok memRoot ∧
    statSync memRoot "/sandbox" = .ok true ∧
    statSync memRoot "/tmp" = .ok true ∧
    readFileSync memRoot "/sandbox/input.txt" = .ok (strBytes "hello from input.txt\n") ∧
    readFileSync memRoot "/sandbox/input2.txt" = .ok (strBytes "hello from input2.txt\n") ∧
    readFileSync memRoot "/sandbox/notadir" = .ok [] :=
  ⟨rfl, rfl, rfl, rfl, rfl, rfl⟩

theorem wsWrite_closed (s : WStream) (pos? : Option Int) (d : List Nat) :
    (wsWrite s pos? d).1.closed = s.closed := by
  rw [wsWrite]
  by_cases h : s.closed
  · simp [h]
  · simp only [h, Bool.false_eq_true, if_false]
    split <;> rfl

theorem wsSeek_closed (s : WStream) (p : Int) : (wsSeek s p).1.closed = s.closed := by
  rw [wsSeek]
  by_cases h : s.closed <;> simp [h]

theorem wsTruncate_closed (s : WStream) (sz : Int) :
    (wsTruncate s sz).1.closed = s.closed := by
  rw [wsTruncate]
  by_cases h : s.closed <;> simp [h]

theorem runOps_closed : ∀ (ops : List WOp) (sv : WStream × Node),
    (runOps sv ops).1.closed = sv.1.closed := by
  intro ops
  induction ops with
  | nil => intro sv; rfl
  | cons op ops ih =>
    intro sv
    rw [runOps, ih]
    cases op with
    | write pos? d => exact wsWrite_closed sv.1 pos? d
    | seek p => exact wsSeek_closed sv.1 p
    | truncate sz => exact wsTruncate_closed sv.1 sz

/-- A successful first `close` published exactly the buffer: reading the
path back from the resulting volume yields the stream's bytes. -/
theorem wsClose_none_read (s : WStream) (p : String) (v : Node) (s' : WStream)
    (v' : Node) (hop : s.closed = false) (h : wsClose s p v = ((s', v'), none)) :
    readFileSync v' p = .ok s.data := by
  rw [wsClose] at h
  simp only [hop, Bool.false_eq_true, if_false] at h
  cases hmk : (if dirOf p ≠ "" ∧ dirOf p ≠ "/" then
      match mkdirSyncRec v (dirOf p) with
      | .ok w => Except.ok w
      | .error .EEXIST => Except.ok v
      | .error e => Except.error e
    else Except.ok v) with
  | error e => rw [hmk] at h; simp at h
  | ok v1 =>
    rw [hmk] at h
    dsimp only at h
    cases hw : writeFileSync v1 p s.data with
    | error e => rw [hw] at h; simp at h
    | ok v2 =>
      rw [hw] at h
      simp only [Prod.mk.injEq] at h
      obtain ⟨⟨hs, hv⟩, _⟩ := h
      rw [← hv]
      exact writeFile_read (splitPath p) v1 v2 hw

/-- C1: a writable stream buffers: the backing volume is unchanged by any
sequence of `write`, `seek` and `truncate` calls while the stream is open
(so a `getFile` on a handle for the path performed before `close` still
returns only the pre-existing content), and a successful first `close`
publishes the stream's entire internal buffer as the file at the path. -/
theorem stream_buffers_until_close (v : Node) (p : String) (keep : Bool)
    (s0 : WStream) (h0 : createWritable v p keep = .ok s0) (ops : List WOp) :
    (runOps (s0, v) ops).2 = v ∧
    getFile (runOps (s0, v) ops).2 p = getFile v p ∧
    (∀ (s' : WStream) (v' : Node),
      wsClose (runOps (s0, v) ops).1 p (runOps (s0, v) ops).2 = ((s', v'), none) →
      readFileSync v' p = .ok (runOps (s0, v) ops).1.data) := by
  have hsnd := runOps_snd ops (s0, v)
  have hop0 : s0.closed = false := by
    rw [createWritable] at h0
    by_cases hk : keep
    · rw [if_pos hk] at h0
      cases hr : readFileSync v p with
      | ok b => rw [hr] at h0; simp at h0; rw [← h0]
      | error e =>
        rw [hr] at h0
        cases e with
        | ENOENT => simp at h0; rw [← h0]
        | ENOTDIR => simp at h0
        | ENOTEMPTY => simp at h0
        | EISDIR => simp at h0
        | EEXIST => simp at h0
        | other => simp at h0
    · rw [if_neg hk] at h0
      simp at h0
      rw [← h0]
  have hcl : (runOps (s0, v) ops).1.closed = false := by
    rw [runOps_closed]
    exact hop0
  refine ⟨hsnd, by rw [hsnd], ?_⟩
  intro s' v' h
  rw [hsnd] at h
  exact wsClose_none_read _ p v s' v' hcl h

theorem readFileSync_resolve (v : Node) (p : String) (c : List Nat)
    (h : readFileSync v p = .ok c) : resolve v (splitPath p) = .ok (.file c) := by
  rw [readFileSync, readFile] at h
  cases hr : resolve v (splitPath p) with
  | error e => rw [hr] at h; simp at h
  | ok n =>
    rw [hr] at h
    cases n with
    | file b => simp at h; rw [h]
    | dir es => simp at h

/-- The state after a `write` of `b` with no explicit position on a
keep-existing stream freshly opened over content `c`: the buffer becomes
`c ++ b` and the cursor its length. -/
theorem wsWrite_append (c b : List Nat) :
    wsWrite ⟨c, (c.length : Int), false⟩ none b
      = (⟨c ++ b, ((c.length + b.length : Nat) : Int), false⟩, none) := by
  rw [wsWrite_eq ⟨c, (c.length : Int), false⟩ none b rfl (c.length : Int) rfl
    (by omega)]
  have h1 : ((c.length : Int)).toNat = c.length := by omega
  have hd : c.drop (c.length + b.length) = [] := List.drop_eq_nil_of_le (by omega)
  simp only [h1, List.take_length, Nat.sub_self, List.replicate_zero, hd,
    List.append_nil, List.nil_append, Nat.cast_add]

/-- Scenario B of the spec, executed against the adapter: write `a
` to
`/sandbox/out.txt`, close, reopen with `keepExistingData` seeked to EOF,
write `b
`, close, then read the final content back. -/
def scenarioB : Except AErr (List Nat) :=
  match createMemoryFileSystem with
  | .error e => .error (.Raw e)
  | .ok v0 =>
    match createWritable v0 "/sandbox/out.txt" false with
    | .error e => .error e
    | .ok s1 =>
      let s2 := (wsWrite s1 none (strBytes "a
")).1
      match wsClose s2 "/sandbox/out.txt" v0 with
      | (_, some e) => .error e
      | ((_, v1), none) =>
        match createWritable v1 "/sandbox/out.txt" true with
        | .error e => .error e
        | .ok s3 =>
          match getFile v1 "/sandbox/out.txt" with
          | .error e => .error e
          | .ok f =>
            let s4 := (wsSeek s3 (f.length : Int)).1
            let s5 := (wsWrite s4 none (strBytes "b
")).1
            match wsClose s5 "/sandbox/out.txt" v1 with
            | (_, some e) => .error e
            | ((_, v2), none) => getFile v2 "/sandbox/out.txt"

/-- C4: opening a writable stream with `keepExistingData = true` over a file
with content `c` starts from buffer `c` with the cursor at its end, so
writing `b` and closing leaves the file equal to `c ++ b`; concretely,
writing `a
` in one run and `b
` in a second keep-existing run seeked to
EOF leaves `/sandbox/out.txt` holding `a
b
`, of size 4. -/
theorem keep_existing_appends :
    (∀ (v : Node) (p : String) (c : List Nat),
      readFileSync v p = .ok c →
      createWritable v p true = .ok ⟨c, (c.length : Int), false⟩ ∧
      (splitPath p ≠ [] → splitPath (dirOf p) = (splitPath p).dropLast →
        ∀ b : List Nat, ∃ v',
          wsClose (wsWrite ⟨c, (c.length : Int), false⟩ none b).1 p v
            = ((⟨c ++ b, ((c.length + b.length : Nat) : Int), true⟩, v'), none) ∧
          readFileSync v' p = .ok (c ++ b))) ∧
    scenarioB = .ok (strBytes "a
b
") ∧
    (strBytes "a
b
").length = 4 := by
  refine ⟨?_, rfl, rfl⟩
  intro v p c hread
  constructor
  · rw [createWritable, if_pos rfl, hread]
  · intro hne hdp b
    rw [wsWrite_append]
    obtain ⟨v', hclose, hback⟩ :=
      wsClose_ok_of_file ⟨c ++ b, ((c.length + b.length : Nat) : Int), false⟩ p v c
        rfl hne hdp (readFileSync_resolve v p c hread)
    exact ⟨v', hclose, hback⟩

/-- C5: `removeEntry` without `recursive` on a non-empty directory fails
with the non-empty-directory error (`ENOTEMPTY`, surfaced as the
`InvalidModificationError` DOMException) — and, failing, returns no new
volume, so the directory and its entries are untouched — and `removeEntry`
on a missing name fails with `NotFoundError`. -/
theorem remove_entry_guards :
    (∀ (v : Node) (p name : String) (e : String × Node) (es : List (String × Node)),
      splitPath (childPath p name) ≠ [] →
      resolve v (splitPath (childPath p name)) = .ok (.dir (e :: es)) →
      removeEntry v p name false = .error .InvalidModificationError) ∧
    (∀ (v : Node) (p name : String) (recursive : Bool),
      resolve v (splitPath (childPath p name)) = .error .ENOENT →
      removeEntry v p name recursive = .error .NotFoundError) := by
  constructor
  · intro v p name e es hne hres
    have hrm := rmdirA_nonempty (splitPath (childPath p name)) v e es hne hres
    simp only [removeEntry, hres, hrm, isDirNode, Bool.false_eq_true, if_false,
      if_true]
  · intro v p name recursive hres
    simp only [removeEntry, hres]

theorem lookup_none_of_resolve_enoent {v : Node} {sp : List String}
    {es : List (String × Node)} {name : String}
    (hsp : resolve v sp = .ok (.dir es))
    (hm : resolve v (sp ++ [name]) = .error .ENOENT) :
    lookupEntry es name = none := by
  rw [resolve_append, hsp] at hm
  simp only [Except.bind] at hm
  cases hl : lookupEntry es name with
  | none => rfl
  | some ch =>
    rw [resolve_dir_cons hl] at hm
    simp [resolve] at hm

/-- C6: `getDirectoryHandle` on an existing file is `TypeMismatchError`
whatever the create option, and symmetrically `getFileHandle` on an
existing directory; on a missing target each creates it (an empty file,
respectively an empty directory) when `create` holds, and fails with
`NotFoundError` otherwise; and `getFileHandle` with `create` on an
existing file opens it without an exists error. -/
theorem open_kind_checks :
    (∀ (v : Node) (p name : String) (create : Bool) (c : List Nat),
      resolve v (splitPath (childPath p name)) = .ok (.file c) →
      getDirectoryHandle v p name create = .error .TypeMismatchError) ∧
    (∀ (v : Node) (p name : String) (create : Bool) (es : List (String × Node)),
      resolve v (splitPath (childPath p name)) = .ok (.dir es) →
      getFileHandle v p name create = .error .TypeMismatchError) ∧
    (∀ (v : Node) (p name : String),
      resolve v (splitPath (childPath p name)) = .error .ENOENT →
      getFileHandle v p name false = .error .NotFoundError ∧
      getDirectoryHandle v p name false = .error .NotFoundError) ∧
    (∀ (v : Node) (p name : String) (es : List (String × Node)),
      splitPath (childPath p name) = splitPath p ++ [name] →
      resolve v (splitPath p) = .ok (.dir es) →
      resolve v (splitPath (childPath p name)) = .error .ENOENT →
      (∃ v', getFileHandle v p name true = .ok (childPath p name, v') ∧
        resolve v' (splitPath (childPath p name)) = .ok (.file [])) ∧
      (∃ v', getDirectoryHandle v p name true = .ok (childPath p name, v') ∧
        resolve v' (splitPath (childPath p name)) = .ok (.dir []))) ∧
    (∀ (v : Node) (p name : String) (c : List Nat),
      resolve v (splitPath (childPath p name)) = .ok (.file c) →
      getFileHandle v p name true = .ok (childPath p name, v)) := by
  refine ⟨?_, ?_, ?_, ?_, ?_⟩
  · intro v p name create c hres
    simp only [getDirectoryHandle, hres]
  · intro v p name create es hres
    simp only [getFileHandle, hres]
  · intro v p name hres
    constructor
    · simp only [getFileHandle, hres, Bool.false_eq_true, if_false]
    · simp only [getDirectoryHandle, hres, Bool.false_eq_true, if_false]
  · intro v p name es hsplit hdir hmiss
    have hmiss' : resolve v (splitPath p ++ [name]) = .error .ENOENT := by
      rw [← hsplit]; exact hmiss
    have hnone := lookup_none_of_resolve_enoent hdir hmiss'
    constructor
    · obtain ⟨v', hw, hres'⟩ := writeFile_creates [] (splitPath p) v es name hdir hnone
      refine ⟨v', ?_, ?_⟩
      · simp only [getFileHandle, hsplit, hmiss', if_true, writeFileSync, hw]
      · rw [hsplit]; exact hres'
    · obtain ⟨v', hmk, hres'⟩ := mkdirRec_creates (splitPath p) v es name hdir hnone
      refine ⟨v', ?_, ?_⟩
      · simp only [getDirectoryHandle, hsplit, hmiss', if_true, mkdirSyncRec, hmk]
      · rw [hsplit]; exact hres'
  · intro v p name c hres
    simp only [getFileHandle, hres]

/-! ## Witnesses: each claim theorem with hypotheses applied at a concrete
input, every hypothesis discharged by evaluation -/

theorem stream_buffers_witness :
    (runOps (⟨[], 0, false⟩, Node.dir [("a", Node.file [1])])
      [WOp.write none [2], WOp.seek 9, WOp.truncate 1]).2
      = Node.dir [("a", Node.file [1])] ∧
    getFile (runOps (⟨[], 0, false⟩, Node.dir [("a", Node.file [1])])
      [WOp.write none [2], WOp.seek 9, WOp.truncate 1]).2 "/a"
      = getFile (Node.dir [("a", Node.file [1])]) "/a" :=
  ⟨(stream_buffers_until_close (Node.dir [("a", Node.file [1])]) "/a" false
      ⟨[], 0, false⟩ rfl [WOp.write none [2], WOp.seek 9, WOp.truncate 1]).1,
   (stream_buffers_until_close (Node.dir [("a", Node.file [1])]) "/a" false
      ⟨[], 0, false⟩ rfl [WOp.write none [2], WOp.seek 9, WOp.truncate 1]).2.1⟩

theorem write_expands_witness :
    (wsWrite ⟨[5, 6], (1 : Int), false⟩ (some 4) [7, 8]).2 = none ∧
    (wsWrite ⟨[5, 6], (1 : Int), false⟩ (some 4) [7, 8]).1.data.length
      = max ([5, 6] : List Nat).length ((4 : Int).toNat + ([7, 8] : List Nat).length) ∧
    (wsWrite ⟨[5, 6], (1 : Int), false⟩ (some 4) [7, 8]).1.position
      = 4 + (([7, 8] : List Nat).length : Int) :=
  ⟨(write_expands_and_places ⟨[5, 6], (1 : Int), false⟩ (some 4) [7, 8] rfl 4 rfl
      (by decide)).1,
   (write_expands_and_places ⟨[5, 6], (1 : Int), false⟩ (some 4) [7, 8] rfl 4 rfl
      (by decide)).2.1,
   (write_expands_and_places ⟨[5, 6], (1 : Int), false⟩ (some 4) [7, 8] rfl 4 rfl
      (by decide)).2.2.2.2.2.1⟩

theorem closed_stream_witness :
    wsWrite ⟨[2], 1, true⟩ none [3] = (⟨[2], 1, true⟩, some .StreamClosed) ∧
    wsClose ⟨[2], 1, true⟩ "/a" (Node.dir []) = ((⟨[2], 1, true⟩, Node.dir []), none) :=
  ⟨((closed_stream_rejects ⟨[1], 0, false⟩ "/a" (Node.dir [])).2
      ⟨[2], 1, true⟩ rfl).1 none [3],
   ((closed_stream_rejects ⟨[1], 0, false⟩ "/a" (Node.dir [])).2
      ⟨[2], 1, true⟩ rfl).2.2.2 "/a" (Node.dir [])⟩

theorem keep_existing_witness :
    createWritable (Node.dir [("f", Node.file [97])]) "/f" true
      = .ok ⟨[97], (([97] : List Nat).length : Int), false⟩ ∧
    (∃ v', wsClose (wsWrite ⟨[97], (([97] : List Nat).length : Int), false⟩ none [98]).1
        "/f" (Node.dir [("f", Node.file [97])])
        = ((⟨[97] ++ [98], ((([97] : List Nat).length + ([98] : List Nat).length : Nat) : Int),
            true⟩, v'), none) ∧
      readFileSync v' "/f" = .ok ([97] ++ [98])) :=
  ⟨(keep_existing_appends.1 (Node.dir [("f", Node.file [97])]) "/f" [97] rfl).1,
   (keep_existing_appends.1 (Node.dir [("f", Node.file [97])]) "/f" [97] rfl).2
     (by decide) (by decide) [98]⟩

theorem remove_entry_witness :
    removeEntry (Node.dir [("sandbox", Node.dir [("d", Node.dir [("x", Node.file [])])])])
      "/sandbox" "d" false = .error .InvalidModificationError ∧
    removeEntry (Node.dir [("sandbox", Node.dir [("d", Node.dir [("x", Node.file [])])])])
      "/sandbox" "nope" true = .error .NotFoundError :=
  ⟨remove_entry_guards.1
      (Node.dir [("sandbox", Node.dir [("d", Node.dir [("x", Node.file [])])])])
      "/sandbox" "d" ("x", Node.file []) [] (by decide) rfl,
   remove_entry_guards.2
      (Node.dir [("sandbox", Node.dir [("d", Node.dir [("x", Node.file [])])])])
      "/sandbox" "nope" true rfl⟩

theorem open_kind_witness :
    getDirectoryHandle (Node.dir [("sandbox", Node.dir [("notadir", Node.file [])])])
      "/sandbox" "notadir" true = .error .TypeMismatchError ∧
    getFileHandle (Node.dir [("sandbox", Node.dir [("notadir", Node.file [])])])
      "/" "sandbox" false = .error .TypeMismatchError ∧
    getFileHandle (Node.dir [("sandbox", Node.dir [("notadir", Node.file [])])])
      "/sandbox" "nope" false = .error .NotFoundError ∧
    (∃ v', getFileHandle (Node.dir [("sandbox", Node.dir [("notadir", Node.file [])])])
        "/sandbox" "new" true = .ok (childPath "/sandbox" "new", v') ∧
      resolve v' (splitPath (childPath "/sandbox" "new")) = .ok (.file [])) ∧
    getFileHandle (Node.dir [("sandbox", Node.dir [("notadir", Node.file [])])])
      "/sandbox" "notadir" true
      = .ok (childPath "/sandbox" "notadir",
          Node.dir [("sandbox", Node.dir [("notadir", Node.file [])])]) :=
  ⟨open_kind_checks.1 (Node.dir [("sandbox", Node.dir [("notadir", Node.file [])])])
      "/sandbox" "notadir" true [] rfl,
   open_kind_checks.2.1 (Node.dir [("sandbox", Node.dir [("notadir", Node.file [])])])
      "/" "sandbox" false [("notadir", Node.file [])] rfl,
   (open_kind_checks.2.2.1 (Node.dir [("sandbox", Node.dir [("notadir", Node.file [])])])
      "/sandbox" "nope" rfl).1,
   (open_kind_checks.2.2.2.1 (Node.dir [("sandbox", Node.dir [("notadir", Node.file [])])])
      "/sandbox" "new" [("notadir", Node.file [])] (by decide) rfl rfl).1,
   open_kind_checks.2.2.2.2 (Node.dir [("sandbox", Node.dir [("notadir", Node.file [])])])
      "/sandbox" "notadir" [] rfl⟩

theorem truncate_resizes_witness :
    (wsTruncate ⟨[1, 2, 3], 2, false⟩ 5).2 = none ∧
    (wsTruncate ⟨[1, 2, 3], 2, false⟩ 5).1.data.length = (5 : Int).toNat ∧
    (wsTruncate ⟨[1, 2, 3], 2, false⟩ 5).1.position = min 2 5 :=
  ⟨(truncate_resizes ⟨[1, 2, 3], 2, false⟩ 5 rfl (by decide)).1,
   (truncate_resizes ⟨[1, 2, 3], 2, false⟩ 5 rfl (by decide)).2.1,
   (truncate_resizes ⟨[1, 2, 3], 2, false⟩ 5 rfl (by decide)).2.2.2.2.1⟩

theorem seek_unvalidated_witness :
    wsSeek ⟨[9], 3, false⟩ (-7) = (⟨[9], -7, false⟩, none) ∧
    wsSeek ⟨[9], 3, true⟩ (-7) = (⟨[9], 3, true⟩, some .StreamClosed) :=
  ⟨(seek_unvalidated ⟨[9], 3, false⟩ (-7)).1 rfl,
   (seek_unvalidated ⟨[9], 3, true⟩ (-7)).2.1 rfl⟩

end MemfsAdapter

